import Mathlib

set_option maxRecDepth 100000

/-!
# Verification of the IBS-TH1 BLE sensor library

Shallow embedding of `ibs_th1.js`: the CRC-16 checksum, the discovery
filter-and-decode pipeline (`onDiscover_`), the uuid→address identity
cache with its connect handshake (`connect_`), and the JSON-file backed
`Config` persistence.  JavaScript numbers stay below 2^16 throughout the
CRC, so they are modelled as `Nat`; frame bytes are `Nat` with explicit
`< 256` bounds; temperature and humidity divisions are exact in `ℚ`.
-/

namespace IBS_TH1

/-! ## Checksum (source: `static getCrc16(buffer)`)

```js
let crc16 = 0xffff;
for (let byte of buffer) {
  crc16 ^= byte;
  for (let i = 0; i < 8; i++) {
    const tmp = crc16 & 0x1;
    crc16 >>= 1;
    if (tmp) { crc16 ^= 0xa001; }
  }
}
return crc16;
```
-/

/-- One iteration of the inner 8-round loop of `getCrc16`: save the low
bit, shift right, and XOR with 0xA001 when the saved bit was set
(JavaScript `if (tmp)` is truth on any non-zero number). -/
def crc16Round (crc16 : Nat) : Nat :=
  let tmp := crc16 &&& 0x1
  let shifted := crc16 >>> 1
  if tmp ≠ 0 then shifted ^^^ 0xa001 else shifted

/-- The inner `for (let i = 0; i < 8; i++)` loop, by iteration count. -/
def crc16Rounds : Nat → Nat → Nat
  | 0, crc16 => crc16
  | i + 1, crc16 => crc16Rounds i (crc16Round crc16)

/-- The body of the outer `for (let byte of buffer)` loop: XOR the byte
into the accumulator, then run 8 rounds. -/
def crc16Byte (crc16 byte : Nat) : Nat :=
  crc16Rounds 8 (crc16 ^^^ byte)

/-- Source `IBS_TH1.getCrc16`: fold the per-byte step over the buffer starting
from 0xFFFF. -/
def getCrc16 (buffer : List Nat) : Nat :=
  buffer.foldl crc16Byte 0xffff

lemma crc16Round_lt {c : Nat} (h : c < 0x10000) : crc16Round c < 0x10000 := by
  unfold crc16Round
  have hs : c >>> 1 < 0x10000 := by
    have : c >>> 1 = c / 2 ^ 1 := Nat.shiftRight_eq_div_pow c 1
    omega
  dsimp only
  split
  · have : c >>> 1 ^^^ 0xa001 < 2 ^ 16 :=
      Nat.xor_lt_two_pow (n := 16) hs (by norm_num)
    simpa using this
  · exact hs

lemma crc16Rounds_lt : ∀ (i : Nat) {c : Nat}, c < 0x10000 →
    crc16Rounds i c < 0x10000
  | 0, _, h => h
  | i + 1, _, h => crc16Rounds_lt i (crc16Round_lt h)

lemma crc16Byte_lt {c b : Nat} (hc : c < 0x10000) (hb : b < 256) :
    crc16Byte c b < 0x10000 := by
  unfold crc16Byte
  exact crc16Rounds_lt 8 (by
    have : c ^^^ b < 2 ^ 16 :=
      Nat.xor_lt_two_pow (n := 16) hc (by omega)
    simpa using this)

lemma foldl_crc16Byte_lt : ∀ (l : List Nat) {c : Nat}, c < 0x10000 →
    (∀ b ∈ l, b < 256) → l.foldl crc16Byte c < 0x10000
  | [], _, hc, _ => hc
  | b :: rest, _, hc, hl =>
    foldl_crc16Byte_lt rest (crc16Byte_lt hc (hl b (List.mem_cons_self b rest)))
      (fun x hx => hl x (List.mem_cons_of_mem b hx))

/-- C2: for every byte sequence, `getCrc16` is total (it is a Lean
function, hence terminating and deterministic), its result lies in
0..0xFFFF, the empty sequence yields the initial accumulator 0xFFFF, and
appending one byte applies the XOR-then-8-rounds per-byte step to the
previous accumulator value. -/
theorem getCrc16_total_range (buffer : List Nat) (b : Nat)
    (h : ∀ x ∈ buffer, x < 256) :
    getCrc16 buffer < 0x10000 ∧
    getCrc16 [] = 0xffff ∧
    getCrc16 (buffer ++ [b]) = crc16Byte (getCrc16 buffer) b := by
  refine ⟨foldl_crc16Byte_lt buffer (by norm_num) h, rfl, ?_⟩
  simp [getCrc16, List.foldl_append]

/-- Witness for C2 at the concrete buffer [0, 0, 0, 0, 0] and byte 7. -/
theorem getCrc16_total_range_witness :
    (∀ x ∈ [0, 0, 0, 0, 0], x < 256) ∧
    (getCrc16 [0, 0, 0, 0, 0] < 0x10000 ∧
     getCrc16 [] = 0xffff ∧
     getCrc16 ([0, 0, 0, 0, 0] ++ [7]) =
       crc16Byte (getCrc16 [0, 0, 0, 0, 0]) 7) :=
  ⟨by decide, getCrc16_total_range [0, 0, 0, 0, 0] 7 (by decide)⟩

/-! ## Data model

`peripheral` objects carry a uuid (the volatile scan identifier), an
advertisement (local name plus optional manufacturer data bytes), and —
once a connection succeeds — a hardware address.  The JavaScript value
`peripheral.address` may be missing, hence `Option String`; a falsy
`peripheral.uuid` is modelled as the empty string.  The identity cache
`this.uuid_to_address_` is a JavaScript object: key absent = no entry,
key mapped to `null` = resolution pending, key mapped to a string =
resolved address.  It is modelled as an association list in insertion
order, matching object key order. -/

structure Advertisement where
  localName : String
  manufacturerData : Option (List Nat)
  deriving DecidableEq, Repr

structure Peripheral where
  uuid : String
  advertisement : Advertisement
  address : Option String
  deriving DecidableEq, Repr

/-- Device name for IBS-TH1 and IBS-TH1 mini (`IBS_TH1.DEVICE_NAME`). -/
def DEVICE_NAME : String := "sps"

/-- Numeric values of `IBS_TH1.ProbeTypeEnum`. -/
def ProbeTypeEnum.UNKNOWN : Nat := 0

def ProbeTypeEnum.BUILT_IN : Nat := 1

def ProbeTypeEnum.EXTERNAL : Nat := 2

/-- Source `IBS_TH1.RealtimeData` as delivered to the subscriber.  The `date`
field (`new Date`) is wall-clock time and is not modelled; the logger
field is behaviour-free. -/
structure RealtimeData where
  uuid : String
  address : String
  temperature : ℚ
  humidity : ℚ
  probeType : Nat
  battery : Nat
  deriving DecidableEq, Repr

/-- The `uuid_to_address_` cache: association list keyed by scan uuid.
`none` values are the JavaScript `null` marker for pending resolution. -/
abbrev Cache := List (String × Option String)

/-- Object key lookup: `uuid in obj` is `getVal u c ≠ none`, and
`obj[u]` is the inner value. -/
def getVal (u : String) : Cache → Option (Option String)
  | [] => none
  | (k, v) :: rest => if k = u then some v else getVal u rest

/-- Object key assignment `obj[u] = v`: update in place, or append a new
key at the end (JavaScript insertion order). -/
def setVal (u : String) (v : Option String) : Cache → Cache
  | [] => [(u, v)]
  | (k, w) :: rest => if k = u then (k, v) :: rest else (k, w) :: setVal u v rest

/-- Object key removal `delete obj[u]`. -/
def delKey (u : String) : Cache → Cache
  | [] => []
  | (k, w) :: rest => if k = u then delKey u rest else (k, w) :: delKey u rest

lemma getVal_setVal_self (u : String) (v : Option String) :
    ∀ c : Cache, getVal u (setVal u v c) = some v
  | [] => by simp [getVal, setVal]
  | (k, w) :: rest => by
    by_cases h : k = u <;> simp [getVal, setVal, h, getVal_setVal_self u v rest]

lemma getVal_setVal_ne {u x : String} (v : Option String) (h : u ≠ x) :
    ∀ c : Cache, getVal x (setVal u v c) = getVal x c
  | [] => by simp [getVal, setVal, fun hh : u = x => h hh]
  | (k, w) :: rest => by
    by_cases hk : k = u
    · subst hk
      simp [getVal, setVal, fun hh : k = x => h hh]
    · simp [getVal, setVal, hk, getVal_setVal_ne v h rest]

lemma getVal_delKey_self (u : String) :
    ∀ c : Cache, getVal u (delKey u c) = none
  | [] => by simp [getVal, delKey]
  | (k, w) :: rest => by
    by_cases h : k = u <;>
      simp [getVal, delKey, h, getVal_delKey_self u rest]

lemma getVal_delKey_ne {u x : String} (h : u ≠ x) :
    ∀ c : Cache, getVal x (delKey u c) = getVal x c
  | [] => by simp [getVal, delKey]
  | (k, w) :: rest => by
    by_cases hk : k = u
    · subst hk
      simp [getVal, delKey, fun hh : k = x => h hh, getVal_delKey_ne h rest]
    · simp [getVal, delKey, hk, getVal_delKey_ne h rest]

/-! ## Discovery pipeline (source: `async onDiscover_(peripheral)`) -/

/-- Outcome of one `onDiscover_` call: the three filter rejections, the
two cache-miss rejections, or a decoded reading (promise resolution). -/
inductive DiscoverOutcome
  | rejectedNotTarget
  | rejectedBadData
  | rejectedCrc
  | fetchStarted
  | fetchInFlight
  | resolvedData (d : RealtimeData)
  deriving DecidableEq, Repr

/-- Result of one `onDiscover_` call: outcome, the cache afterwards, and
the uuids for which `connect_` was invoked (fire-and-forget). -/
structure DiscoverResult where
  outcome : DiscoverOutcome
  cache : Cache
  connectsStarted : List String
  deriving DecidableEq, Repr

/-- The payload decoding block of `onDiscover_` (lines building
`realtimeData` from `buffer`): little-endian 16-bit temperature with
two's-complement sign handling, little-endian 16-bit humidity, probe
type from byte 4, battery from byte 7; byte 8 (`productionIBS_TH1Data`)
is read into an unused local. -/
def decodePayload (buffer : List Nat) (uuid address : String) : RealtimeData :=
  let temperature_raw_value := buffer.getD 1 0 * 256 + buffer.getD 0 0
  let temperature : ℚ :=
    if temperature_raw_value ≥ 0x8000 then
      ((temperature_raw_value : ℚ) - 0x10000) / 100
    else (temperature_raw_value : ℚ) / 100
  let humidity : ℚ := ((buffer.getD 3 0 * 256 + buffer.getD 2 0 : Nat) : ℚ) / 100
  let probeType :=
    if buffer.getD 4 0 = 0 then ProbeTypeEnum.BUILT_IN
    else if buffer.getD 4 0 = 1 then ProbeTypeEnum.EXTERNAL
    else ProbeTypeEnum.UNKNOWN
  let battery := buffer.getD 7 0
  ⟨uuid, address, temperature, humidity, probeType, battery⟩

/-- Source `onDiscover_`: filter by device name, by presence and length of the
manufacturer data, and by CRC (bytes 5–6 little-endian against the CRC
of bytes 0–4); then consult the cache — absent key marks pending and
starts `connect_`, a `null` value drops the event, and a resolved
address decodes the payload. -/
def onDiscover_ (p : Peripheral) (cache : Cache) : DiscoverResult :=
  if p.advertisement.localName ≠ DEVICE_NAME then
    ⟨.rejectedNotTarget, cache, []⟩
  else
    match p.advertisement.manufacturerData with
    | none => ⟨.rejectedBadData, cache, []⟩
    | some buffer =>
      if buffer.length ≠ 9 then ⟨.rejectedBadData, cache, []⟩
      else if buffer.getD 6 0 * 256 + buffer.getD 5 0 ≠ getCrc16 (buffer.take 5) then
        ⟨.rejectedCrc, cache, []⟩
      else
        match getVal p.uuid cache with
        | none => ⟨.fetchStarted, setVal p.uuid none cache, [p.uuid]⟩
        | some none => ⟨.fetchInFlight, cache, []⟩
        | some (some address) =>
          ⟨.resolvedData (decodePayload buffer p.uuid address), cache, []⟩

/-- The subscriber dispatch in `subscribeRealtimeData`: a rejected
promise is caught and logged, so the callback fires only when
`onDiscover_` resolves with data. -/
def dispatched : DiscoverOutcome → Option RealtimeData
  | .resolvedData d => some d
  | _ => none

/-- The three filter gates at the head of `onDiscover_` as one Boolean:
exact device-name match, manufacturer data present with exactly 9 bytes,
and CRC of bytes 0–4 equal to the little-endian 16-bit value at
offsets 5–6. -/
def passesFiltersB (p : Peripheral) : Bool :=
  (p.advertisement.localName == DEVICE_NAME) &&
  match p.advertisement.manufacturerData with
  | none => false
  | some buffer =>
    (buffer.length == 9) &&
    (buffer.getD 6 0 * 256 + buffer.getD 5 0 == getCrc16 (buffer.take 5))

lemma passesFilters_spec {p : Peripheral} (h : passesFiltersB p = true) :
    p.advertisement.localName = DEVICE_NAME ∧
    ∃ buffer, p.advertisement.manufacturerData = some buffer ∧
      buffer.length = 9 ∧
      buffer.getD 6 0 * 256 + buffer.getD 5 0 = getCrc16 (buffer.take 5) := by
  unfold passesFiltersB at h
  cases hm : p.advertisement.manufacturerData with
  | none => rw [hm] at h; simp at h
  | some buffer =>
    rw [hm] at h
    simp only [Bool.and_eq_true, beq_iff_eq] at h
    exact ⟨h.1, buffer, rfl, h.2.1, h.2.2⟩

lemma onDiscover_eval {p : Peripheral} {buffer : List Nat}
    (hn : p.advertisement.localName = DEVICE_NAME)
    (hb : p.advertisement.manufacturerData = some buffer)
    (hl : buffer.length = 9)
    (hc : buffer.getD 6 0 * 256 + buffer.getD 5 0 = getCrc16 (buffer.take 5))
    (cache : Cache) :
    onDiscover_ p cache =
      match getVal p.uuid cache with
      | none => ⟨.fetchStarted, setVal p.uuid none cache, [p.uuid]⟩
      | some none => ⟨.fetchInFlight, cache, []⟩
      | some (some address) =>
        ⟨.resolvedData (decodePayload buffer p.uuid address), cache, []⟩ := by
  unfold onDiscover_
  rw [hb, if_neg (by simp [hn])]
  dsimp only
  rw [if_neg (by simp [hl]),
    if_neg (by simp only [ne_eq, not_not]; exact hc)]

lemma onDiscover_resolvedData_inv {p : Peripheral} {cache : Cache}
    {d : RealtimeData} (h : (onDiscover_ p cache).outcome = .resolvedData d) :
    ∃ buffer address, p.advertisement.manufacturerData = some buffer ∧
      getVal p.uuid cache = some (some address) ∧
      d = decodePayload buffer p.uuid address := by
  unfold onDiscover_ at h
  split at h
  · simp at h
  · split at h
    · simp at h
    · rename_i buffer heq
      split at h
      · simp at h
      · split at h
        · simp at h
        · split at h
          · simp at h
          · simp at h
          · rename_i address hget
            simp only [DiscoverOutcome.resolvedData.injEq] at h
            exact ⟨buffer, address, heq, hget, h.symm⟩

/-- C1: a 9-byte frame that passes the name, length and CRC filters and
whose scan identifier is resolved decodes to: temperature = the
little-endian 16-bit value at offsets 0–1, minus 0x10000 when ≥ 0x8000,
divided by 100; humidity = the little-endian 16-bit value at offsets 2–3
divided by 100 with no sign extension; battery = byte 7 as-is; and
byte 8 is unused — substituting any other value for it yields the
identical result.  The cache is untouched and no connect is started. -/
theorem decode_spec (p : Peripheral) (cache : Cache) (address : String)
    (b0 b1 b2 b3 b4 b5 b6 b7 b8 b8x : Nat)
    (hname : p.advertisement.localName = DEVICE_NAME)
    (hbuf : p.advertisement.manufacturerData =
      some [b0, b1, b2, b3, b4, b5, b6, b7, b8])
    (hbytes : ∀ x ∈ [b0, b1, b2, b3, b4, b5, b6, b7, b8], x < 256)
    (hcrc : b6 * 256 + b5 = getCrc16 [b0, b1, b2, b3, b4])
    (hres : getVal p.uuid cache = some (some address)) :
    (onDiscover_ p cache).outcome = .resolvedData
      { uuid := p.uuid
        address := address
        temperature :=
          if b1 * 256 + b0 ≥ 0x8000 then
            (((b1 * 256 + b0 : Nat) : ℚ) - 0x10000) / 100
          else ((b1 * 256 + b0 : Nat) : ℚ) / 100
        humidity := ((b3 * 256 + b2 : Nat) : ℚ) / 100
        probeType :=
          if b4 = 0 then ProbeTypeEnum.BUILT_IN
          else if b4 = 1 then ProbeTypeEnum.EXTERNAL
          else ProbeTypeEnum.UNKNOWN
        battery := b7 } ∧
    (onDiscover_ p cache).cache = cache ∧
    (onDiscover_ p cache).connectsStarted = [] ∧
    onDiscover_
      { p with advertisement :=
        { p.advertisement with manufacturerData := some [b0, b1, b2, b3, b4, b5, b6, b7, b8x] } }
      cache =
      onDiscover_ p cache := by
  refine ⟨?_, ?_, ?_, ?_⟩ <;>
    simp [onDiscover_, hname, hbuf, hres, decodePayload, List.getD, hcrc.symm]

/-- Witness for C1: the round-trip frame (temperature raw 2150, humidity
raw 5532, probe byte 0, battery 87, CRC 0xD6E0) decodes to 21.5°,
55.32 %, probe enum BUILT_IN, battery 87; and the negative-temperature
frame with raw 0xFF9C (bytes 0x9C 0xFF) decodes to −1.00°. -/
theorem decode_spec_witness :
    (getVal "u1" [("u1", some "AA:BB:CC:DD:EE:FF")] =
      some (some "AA:BB:CC:DD:EE:FF")) ∧
    (onDiscover_
        ⟨"u1", ⟨"sps", some [0x66, 0x08, 0x9C, 0x15, 0, 0xE0, 0xD6, 87, 0]⟩,
          none⟩
        [("u1", some "AA:BB:CC:DD:EE:FF")]).outcome =
      .resolvedData
        { uuid := "u1"
          address := "AA:BB:CC:DD:EE:FF"
          temperature :=
            if 0x08 * 256 + 0x66 ≥ 0x8000 then
              (((0x08 * 256 + 0x66 : Nat) : ℚ) - 0x10000) / 100
            else ((0x08 * 256 + 0x66 : Nat) : ℚ) / 100
          humidity := ((0x15 * 256 + 0x9C : Nat) : ℚ) / 100
          probeType :=
            if (0 : Nat) = 0 then ProbeTypeEnum.BUILT_IN
            else if (0 : Nat) = 1 then ProbeTypeEnum.EXTERNAL
            else ProbeTypeEnum.UNKNOWN
          battery := 87 } ∧
    (onDiscover_
        ⟨"u1", ⟨"sps", some [0x66, 0x08, 0x9C, 0x15, 0, 0xE0, 0xD6, 87, 0]⟩,
          none⟩
        [("u1", some "AA:BB:CC:DD:EE:FF")]).outcome =
      .resolvedData ⟨"u1", "AA:BB:CC:DD:EE:FF", 21.5, 55.32, 1, 87⟩ ∧
    (onDiscover_
        ⟨"u1", ⟨"sps", some [0x9C, 0xFF, 0, 0, 0, 0xC4, 0x08, 0, 0]⟩, none⟩
        [("u1", some "AA:BB:CC:DD:EE:FF")]).outcome =
      .resolvedData ⟨"u1", "AA:BB:CC:DD:EE:FF", -1, 0, 1, 0⟩ := by
  refine ⟨rfl,
    (decode_spec
      ⟨"u1", ⟨"sps", some [0x66, 0x08, 0x9C, 0x15, 0, 0xE0, 0xD6, 87, 0]⟩, none⟩
      [("u1", some "AA:BB:CC:DD:EE:FF")] "AA:BB:CC:DD:EE:FF"
      0x66 0x08 0x9C 0x15 0 0xE0 0xD6 87 0 0
      rfl rfl (by decide) (by decide) rfl).1, ?_, ?_⟩
  · have h : (onDiscover_
        ⟨"u1", ⟨"sps", some [0x66, 0x08, 0x9C, 0x15, 0, 0xE0, 0xD6, 87, 0]⟩,
          none⟩
        [("u1", some "AA:BB:CC:DD:EE:FF")]).outcome =
        .resolvedData (decodePayload [0x66, 0x08, 0x9C, 0x15, 0, 0xE0, 0xD6, 87, 0]
          "u1" "AA:BB:CC:DD:EE:FF") := rfl
    rw [h]
    norm_num [decodePayload, RealtimeData.mk.injEq, List.getD,
      ProbeTypeEnum.BUILT_IN]
  · have h : (onDiscover_
        ⟨"u1", ⟨"sps", some [0x9C, 0xFF, 0, 0, 0, 0xC4, 0x08, 0, 0]⟩, none⟩
        [("u1", some "AA:BB:CC:DD:EE:FF")]).outcome =
        .resolvedData (decodePayload [0x9C, 0xFF, 0, 0, 0, 0xC4, 0x08, 0, 0]
          "u1" "AA:BB:CC:DD:EE:FF") := rfl
    rw [h]
    norm_num [decodePayload, RealtimeData.mk.injEq, List.getD,
      ProbeTypeEnum.BUILT_IN]

/-- C3: a discovery event whose device name is not the target, or whose
manufacturer data is absent or not exactly 9 bytes, or whose CRC check
fails, is dropped: the outcome is one of the three filter rejections,
decoding is never reached, the subscriber callback receives nothing, the
cache is unchanged, and no connect handshake is started. -/
theorem filter_rejects (p : Peripheral) (cache : Cache)
    (h : passesFiltersB p = false) :
    dispatched (onDiscover_ p cache).outcome = none ∧
    (onDiscover_ p cache).cache = cache ∧
    (onDiscover_ p cache).connectsStarted = [] ∧
    ((onDiscover_ p cache).outcome = .rejectedNotTarget ∨
     (onDiscover_ p cache).outcome = .rejectedBadData ∨
     (onDiscover_ p cache).outcome = .rejectedCrc) := by
  by_cases hn : p.advertisement.localName = DEVICE_NAME
  · cases hm : p.advertisement.manufacturerData with
    | none =>
      have hr : onDiscover_ p cache = ⟨.rejectedBadData, cache, []⟩ := by
        unfold onDiscover_
        rw [if_neg (by simp [hn]), hm]
      rw [hr]
      simp [dispatched]
    | some buffer =>
      by_cases h9 : buffer.length = 9
      · by_cases hcrc : buffer.getD 6 0 * 256 + buffer.getD 5 0 =
            getCrc16 (buffer.take 5)
        · exfalso
          have hp : passesFiltersB p = true := by
            unfold passesFiltersB
            rw [hm]
            simp only [Bool.and_eq_true, beq_iff_eq]
            exact ⟨hn, h9, hcrc⟩
          rw [h] at hp
          simp at hp
        · have hr : onDiscover_ p cache = ⟨.rejectedCrc, cache, []⟩ := by
            unfold onDiscover_
            rw [if_neg (by simp [hn]), hm]
            dsimp only
            rw [if_neg (by simp [h9]), if_pos hcrc]
          rw [hr]
          simp [dispatched]
      · have hr : onDiscover_ p cache = ⟨.rejectedBadData, cache, []⟩ := by
          unfold onDiscover_
          rw [if_neg (by simp [hn]), hm]
          dsimp only
          rw [if_pos h9]
        rw [hr]
        simp [dispatched]
  · have hr : onDiscover_ p cache = ⟨.rejectedNotTarget, cache, []⟩ := by
      unfold onDiscover_
      rw [if_pos hn]
    rw [hr]
    simp [dispatched]

/-- Witness for C3: a frame with the right name and length but a
corrupted checksum byte is rejected without touching the cache. -/
theorem filter_rejects_witness :
    (passesFiltersB
      ⟨"u9", ⟨"sps", some [1, 2, 3, 4, 5, 6, 7, 8, 9]⟩, none⟩ = false) ∧
    (dispatched (onDiscover_
        ⟨"u9", ⟨"sps", some [1, 2, 3, 4, 5, 6, 7, 8, 9]⟩, none⟩ []).outcome =
      none ∧
    (onDiscover_
        ⟨"u9", ⟨"sps", some [1, 2, 3, 4, 5, 6, 7, 8, 9]⟩, none⟩ []).cache = [] ∧
    (onDiscover_
        ⟨"u9", ⟨"sps", some [1, 2, 3, 4, 5, 6, 7, 8, 9]⟩, none⟩
        []).connectsStarted = [] ∧
    ((onDiscover_ ⟨"u9", ⟨"sps", some [1, 2, 3, 4, 5, 6, 7, 8, 9]⟩, none⟩
        []).outcome = .rejectedNotTarget ∨
     (onDiscover_ ⟨"u9", ⟨"sps", some [1, 2, 3, 4, 5, 6, 7, 8, 9]⟩, none⟩
        []).outcome = .rejectedBadData ∨
     (onDiscover_ ⟨"u9", ⟨"sps", some [1, 2, 3, 4, 5, 6, 7, 8, 9]⟩, none⟩
        []).outcome = .rejectedCrc)) :=
  ⟨by decide,
   filter_rejects ⟨"u9", ⟨"sps", some [1, 2, 3, 4, 5, 6, 7, 8, 9]⟩, none⟩ []
     (by decide)⟩

/-- C4: two valid discovery events for the same scan identifier arriving
before any resolution completes start exactly one connect handshake: the
first finds the entry absent, synchronously marks it pending (`null`)
and starts the connect; the second finds the entry pending and is
dropped with no further connect and no cache change. -/
theorem one_connect_per_uuid (p1 p2 : Peripheral) (cache : Cache)
    (h1 : passesFiltersB p1 = true) (h2 : passesFiltersB p2 = true)
    (hu : p2.uuid = p1.uuid) (habs : getVal p1.uuid cache = none) :
    (onDiscover_ p1 cache).outcome = .fetchStarted ∧
    (onDiscover_ p1 cache).connectsStarted = [p1.uuid] ∧
    getVal p1.uuid (onDiscover_ p1 cache).cache = some none ∧
    (onDiscover_ p2 (onDiscover_ p1 cache).cache).outcome = .fetchInFlight ∧
    (onDiscover_ p2 (onDiscover_ p1 cache).cache).connectsStarted = [] ∧
    (onDiscover_ p2 (onDiscover_ p1 cache).cache).cache =
      (onDiscover_ p1 cache).cache := by
  obtain ⟨hn1, buf1, hb1, hl1, hc1⟩ := passesFilters_spec h1
  obtain ⟨hn2, buf2, hb2, hl2, hc2⟩ := passesFilters_spec h2
  have hr1 : onDiscover_ p1 cache =
      ⟨.fetchStarted, setVal p1.uuid none cache, [p1.uuid]⟩ := by
    rw [onDiscover_eval hn1 hb1 hl1 hc1, habs]
  have hpend : getVal p2.uuid (setVal p1.uuid none cache) = some none := by
    rw [hu, getVal_setVal_self]
  have hr2 : onDiscover_ p2 (setVal p1.uuid none cache) =
      ⟨.fetchInFlight, setVal p1.uuid none cache, []⟩ := by
    rw [onDiscover_eval hn2 hb2 hl2 hc2, hpend]
  rw [hr1]
  exact ⟨rfl, rfl, getVal_setVal_self p1.uuid none cache, by rw [hr2],
    by rw [hr2], by rw [hr2]⟩

/-- Witness for C4 with two concrete valid frames for uuid "u2". -/
theorem one_connect_per_uuid_witness :
    (passesFiltersB
        ⟨"u2", ⟨"sps", some [0x66, 0x08, 0x9C, 0x15, 0, 0xE0, 0xD6, 87, 0]⟩,
          none⟩ = true) ∧
    (getVal "u2" [] = none) ∧
    ((onDiscover_
        ⟨"u2", ⟨"sps", some [0x66, 0x08, 0x9C, 0x15, 0, 0xE0, 0xD6, 87, 0]⟩,
          none⟩ []).outcome = .fetchStarted ∧
     (onDiscover_
        ⟨"u2", ⟨"sps", some [0x66, 0x08, 0x9C, 0x15, 0, 0xE0, 0xD6, 87, 0]⟩,
          none⟩ []).connectsStarted = ["u2"] ∧
     getVal "u2" (onDiscover_
        ⟨"u2", ⟨"sps", some [0x66, 0x08, 0x9C, 0x15, 0, 0xE0, 0xD6, 87, 0]⟩,
          none⟩ []).cache = some none ∧
     (onDiscover_
        ⟨"u2", ⟨"sps", some [0x66, 0x08, 0x9C, 0x15, 0, 0xE0, 0xD6, 87, 0]⟩,
          none⟩
        (onDiscover_
          ⟨"u2", ⟨"sps", some [0x66, 0x08, 0x9C, 0x15, 0, 0xE0, 0xD6, 87, 0]⟩,
            none⟩ []).cache).outcome = .fetchInFlight ∧
     (onDiscover_
        ⟨"u2", ⟨"sps", some [0x66, 0x08, 0x9C, 0x15, 0, 0xE0, 0xD6, 87, 0]⟩,
          none⟩
        (onDiscover_
          ⟨"u2", ⟨"sps", some [0x66, 0x08, 0x9C, 0x15, 0, 0xE0, 0xD6, 87, 0]⟩,
            none⟩ []).cache).connectsStarted = [] ∧
     (onDiscover_
        ⟨"u2", ⟨"sps", some [0x66, 0x08, 0x9C, 0x15, 0, 0xE0, 0xD6, 87, 0]⟩,
          none⟩
        (onDiscover_
          ⟨"u2", ⟨"sps", some [0x66, 0x08, 0x9C, 0x15, 0, 0xE0, 0xD6, 87, 0]⟩,
            none⟩ []).cache).cache =
       (onDiscover_
          ⟨"u2", ⟨"sps", some [0x66, 0x08, 0x9C, 0x15, 0, 0xE0, 0xD6, 87, 0]⟩,
            none⟩ []).cache) :=
  ⟨by decide, by decide,
   one_connect_per_uuid
     ⟨"u2", ⟨"sps", some [0x66, 0x08, 0x9C, 0x15, 0, 0xE0, 0xD6, 87, 0]⟩, none⟩
     ⟨"u2", ⟨"sps", some [0x66, 0x08, 0x9C, 0x15, 0, 0xE0, 0xD6, 87, 0]⟩, none⟩
     [] (by decide) (by decide) rfl (by decide)⟩

/-- C10: the probe-type value delivered in a reading is the enum value,
not the wire byte: byte 0 maps to BUILT_IN = 1, byte 1 maps to
EXTERNAL = 2, everything else to UNKNOWN = 0; so the delivered value is
always one of {0, 1, 2}, and it can coincide with the wire byte only in
the UNKNOWN case (which in fact never coincides either, since bytes
outside {0, 1} are nonzero there). -/
theorem probeType_spec (p : Peripheral) (cache : Cache) (d : RealtimeData)
    (buffer : List Nat)
    (hd : (onDiscover_ p cache).outcome = .resolvedData d)
    (hbuf : p.advertisement.manufacturerData = some buffer) :
    (d.probeType = 0 ∨ d.probeType = 1 ∨ d.probeType = 2) ∧
    d.probeType =
      (if buffer.getD 4 0 = 0 then ProbeTypeEnum.BUILT_IN
       else if buffer.getD 4 0 = 1 then ProbeTypeEnum.EXTERNAL
       else ProbeTypeEnum.UNKNOWN) ∧
    ProbeTypeEnum.BUILT_IN = 1 ∧ ProbeTypeEnum.EXTERNAL = 2 ∧
    ProbeTypeEnum.UNKNOWN = 0 ∧
    (d.probeType = buffer.getD 4 0 →
      ¬(buffer.getD 4 0 = 0 ∨ buffer.getD 4 0 = 1) ∧ d.probeType = 0) := by
  obtain ⟨buffer2, address, hbuf2, hget, hdec⟩ := onDiscover_resolvedData_inv hd
  rw [hbuf] at hbuf2
  obtain rfl : buffer = buffer2 := by injection hbuf2
  subst hdec
  unfold decodePayload ProbeTypeEnum.BUILT_IN ProbeTypeEnum.EXTERNAL
    ProbeTypeEnum.UNKNOWN
  dsimp only
  refine ⟨?_, rfl, rfl, rfl, rfl, ?_⟩ <;> split_ifs <;> omega

/-- Witness for C10: the frame with probe byte 3 (outside {0, 1})
delivers probe type 0. -/
theorem probeType_spec_witness :
    ((onDiscover_
        ⟨"u3", ⟨"sps", some [0x01, 0, 0x02, 0, 0x03, 0xF8, 0x01, 50, 0]⟩, none⟩
        [("u3", some "11:22:33:44:55:66")]).outcome =
      .resolvedData (decodePayload [0x01, 0, 0x02, 0, 0x03, 0xF8, 0x01, 50, 0]
        "u3" "11:22:33:44:55:66")) ∧
    (((decodePayload [0x01, 0, 0x02, 0, 0x03, 0xF8, 0x01, 50, 0]
        "u3" "11:22:33:44:55:66").probeType = 0 ∨
      (decodePayload [0x01, 0, 0x02, 0, 0x03, 0xF8, 0x01, 50, 0]
        "u3" "11:22:33:44:55:66").probeType = 1 ∨
      (decodePayload [0x01, 0, 0x02, 0, 0x03, 0xF8, 0x01, 50, 0]
        "u3" "11:22:33:44:55:66").probeType = 2) ∧
     (decodePayload [0x01, 0, 0x02, 0, 0x03, 0xF8, 0x01, 50, 0]
        "u3" "11:22:33:44:55:66").probeType =
      (if ([0x01, 0, 0x02, 0, 0x03, 0xF8, 0x01, 50, 0] : List Nat).getD 4 0 = 0
       then ProbeTypeEnum.BUILT_IN
       else if ([0x01, 0, 0x02, 0, 0x03, 0xF8, 0x01, 50, 0] : List Nat).getD 4 0 = 1
       then ProbeTypeEnum.EXTERNAL
       else ProbeTypeEnum.UNKNOWN) ∧
     ProbeTypeEnum.BUILT_IN = 1 ∧ ProbeTypeEnum.EXTERNAL = 2 ∧
     ProbeTypeEnum.UNKNOWN = 0 ∧
     ((decodePayload [0x01, 0, 0x02, 0, 0x03, 0xF8, 0x01, 50, 0]
          "u3" "11:22:33:44:55:66").probeType =
        ([0x01, 0, 0x02, 0, 0x03, 0xF8, 0x01, 50, 0] : List Nat).getD 4 0 →
      ¬(([0x01, 0, 0x02, 0, 0x03, 0xF8, 0x01, 50, 0] : List Nat).getD 4 0 = 0 ∨
        ([0x01, 0, 0x02, 0, 0x03, 0xF8, 0x01, 50, 0] : List Nat).getD 4 0 = 1) ∧
      (decodePayload [0x01, 0, 0x02, 0, 0x03, 0xF8, 0x01, 50, 0]
        "u3" "11:22:33:44:55:66").probeType = 0)) :=
  ⟨rfl,
   probeType_spec
     ⟨"u3", ⟨"sps", some [0x01, 0, 0x02, 0, 0x03, 0xF8, 0x01, 50, 0]⟩, none⟩
     [("u3", some "11:22:33:44:55:66")]
     (decodePayload [0x01, 0, 0x02, 0, 0x03, 0xF8, 0x01, 50, 0]
       "u3" "11:22:33:44:55:66")
     [0x01, 0, 0x02, 0, 0x03, 0xF8, 0x01, 50, 0] rfl rfl⟩

/-! ## Connect handshake (source: `async connect_(peripheral)`)

The cache-relevant body is the callback of `peripheral.connect(err =>
...)`:

```js
if (err) { reject('connect result:', err); return; }
peripheral.disconnect(err => reject('Failed to disconnect from', peripheral.uuid));
if (err || !peripheral.uuid) {
  delete this.uuid_to_address_[peripheral.uuid];
  reject(err);
  return;
}
this.uuid_to_address_[peripheral.uuid] = peripheral.address;
{ const data = {};
  for (let key in this.uuid_to_address_) {
    if (this.uuid_to_address_[key] != null) { data[key] = this.uuid_to_address_[key]; }
  }
  new IBS_TH1.Config('uuid_to_address').save(data); }
resolve(peripheral);
```

The `disconnect` callback only rejects the promise and never touches the
cache, so it is not modelled.  Note that in the second guard `err` is
the same (falsy) variable already returned on by the first guard, so
only `!peripheral.uuid` can fire there; a falsy JavaScript uuid string
is modelled as `""`.  `peripheral.address` may be absent
(`Option String`). -/

/-- Result of running the connect callback: the cache afterwards, the
mapping passed to `Config.save` (if any), and whether the promise was
rejected. -/
structure ConnectResult where
  cache : Cache
  saved : Option (List (String × String))
  failed : Bool
  deriving DecidableEq, Repr

/-- The `data` object built before `Config.save`: every cache entry
whose value is not `null`, in key insertion order. -/
def filterResolved (c : Cache) : List (String × String) :=
  c.filterMap (fun kv => (kv.2).map (fun a => (kv.1, a)))

/-- The connect callback of `connect_`, given the `err` value the radio
subsystem passed in. -/
def connect_ (p : Peripheral) (err : Bool) (cache : Cache) : ConnectResult :=
  if err then
    ⟨cache, none, true⟩
  else if err = true ∨ p.uuid = "" then
    ⟨delKey p.uuid cache, none, true⟩
  else
    let cache2 := setVal p.uuid p.address cache
    ⟨cache2, some (filterResolved cache2), false⟩

lemma mem_filterResolved (c : Cache) (k v : String) :
    (k, v) ∈ filterResolved c ↔ (k, some v) ∈ c := by
  constructor
  · intro h
    rw [filterResolved, List.mem_filterMap] at h
    obtain ⟨⟨k2, w⟩, hmem, hf⟩ := h
    cases w with
    | none => simp at hf
    | some a =>
      simp at hf
      obtain ⟨rfl, rfl⟩ := hf
      exact hmem
  · intro h
    rw [filterResolved, List.mem_filterMap]
    exact ⟨(k, some v), h, rfl⟩

/-- C5 (against the claim): when the connect callback reports an error
for a pending scan identifier, the `return` inside `if (err)` fires
before the line `delete this.uuid_to_address_[peripheral.uuid]` can run
(the later `if (err || !peripheral.uuid)` rechecks an `err` that is
already known falsy), so the cache entry is NOT removed: it stays
pending (`null`) and a later valid discovery of the same identifier is
dropped as resolution-in-flight instead of starting a retry. -/
theorem connect_error_entry_not_removed :
    (connect_ ⟨"abc", ⟨"sps", none⟩, some "AA:BB:CC:DD:EE:FF"⟩ true
        [("abc", none)]).cache = [("abc", none)] ∧
    getVal "abc" (connect_ ⟨"abc", ⟨"sps", none⟩, some "AA:BB:CC:DD:EE:FF"⟩ true
        [("abc", none)]).cache = some none ∧
    getVal "abc" (delKey "abc" [("abc", none)]) = none ∧
    (onDiscover_
        ⟨"abc", ⟨"sps", some [0x66, 0x08, 0x9C, 0x15, 0, 0xE0, 0xD6, 87, 0]⟩,
          none⟩
        (connect_ ⟨"abc", ⟨"sps", none⟩, some "AA:BB:CC:DD:EE:FF"⟩ true
          [("abc", none)]).cache).outcome = .fetchInFlight ∧
    (onDiscover_
        ⟨"abc", ⟨"sps", some [0x66, 0x08, 0x9C, 0x15, 0, 0xE0, 0xD6, 87, 0]⟩,
          none⟩
        (connect_ ⟨"abc", ⟨"sps", none⟩, some "AA:BB:CC:DD:EE:FF"⟩ true
          [("abc", none)]).cache).connectsStarted = [] := by
  decide

/-- C6: when a resolution succeeds (no error, a non-empty uuid, an
address string), the cache entry moves from pending to the resolved
address, and the mapping handed to `Config.save` is exactly the set of
cache entries holding a non-null value — pending (null) and absent
entries are never persisted. -/
theorem resolve_persists_resolved (p : Peripheral) (cache : Cache)
    (a k v : String) (hu : ¬p.uuid = "") (ha : p.address = some a)
    (hpend : getVal p.uuid cache = some none) :
    getVal p.uuid (connect_ p false cache).cache = some (some a) ∧
    (connect_ p false cache).failed = false ∧
    (connect_ p false cache).saved =
      some (filterResolved (connect_ p false cache).cache) ∧
    ((k, v) ∈ filterResolved (connect_ p false cache).cache ↔
      (k, some v) ∈ (connect_ p false cache).cache) := by
  have hr : connect_ p false cache =
      ⟨setVal p.uuid p.address cache,
       some (filterResolved (setVal p.uuid p.address cache)), false⟩ := by
    unfold connect_
    rw [if_neg (by simp), if_neg (by simp [hu])]
  rw [hr]
  exact ⟨by rw [ha]; exact getVal_setVal_self p.uuid (some a) cache, rfl, rfl,
    mem_filterResolved _ k v⟩

/-- Witness for C6 at a concrete pending entry for uuid "u1". -/
theorem resolve_persists_resolved_witness :
    (¬("u1" : String) = "" ∧
     getVal "u1" [("u1", none), ("u7", some "77:88")] = some none) ∧
    (getVal "u1" (connect_ ⟨"u1", ⟨"sps", none⟩, some "AA:BB:CC:DD:EE:FF"⟩ false
        [("u1", none), ("u7", some "77:88")]).cache =
      some (some "AA:BB:CC:DD:EE:FF") ∧
    (connect_ ⟨"u1", ⟨"sps", none⟩, some "AA:BB:CC:DD:EE:FF"⟩ false
        [("u1", none), ("u7", some "77:88")]).failed = false ∧
    (connect_ ⟨"u1", ⟨"sps", none⟩, some "AA:BB:CC:DD:EE:FF"⟩ false
        [("u1", none), ("u7", some "77:88")]).saved =
      some (filterResolved
        (connect_ ⟨"u1", ⟨"sps", none⟩, some "AA:BB:CC:DD:EE:FF"⟩ false
          [("u1", none), ("u7", some "77:88")]).cache) ∧
    (("u1", "AA:BB:CC:DD:EE:FF") ∈ filterResolved
        (connect_ ⟨"u1", ⟨"sps", none⟩, some "AA:BB:CC:DD:EE:FF"⟩ false
          [("u1", none), ("u7", some "77:88")]).cache ↔
      ("u1", some "AA:BB:CC:DD:EE:FF") ∈
        (connect_ ⟨"u1", ⟨"sps", none⟩, some "AA:BB:CC:DD:EE:FF"⟩ false
          [("u1", none), ("u7", some "77:88")]).cache)) :=
  ⟨⟨by decide, by decide⟩,
   resolve_persists_resolved
     ⟨"u1", ⟨"sps", none⟩, some "AA:BB:CC:DD:EE:FF"⟩
     [("u1", none), ("u7", some "77:88")] "AA:BB:CC:DD:EE:FF"
     "u1" "AA:BB:CC:DD:EE:FF" (by decide) rfl (by decide)⟩

/-! ## Event-level transition system

The scheduling model is single-threaded and event-driven: each discovery
event runs `onDiscover_` to completion, and each `peripheral.connect`
callback fires once, only for a connect that `onDiscover_` started.  The
system state is the cache plus the multiset of uuids with a connect in
flight; `Reachable` starts from any loaded cache and an empty in-flight
list. -/

/-- The three observable states of a cache entry. -/
inductive EntryState
  | absent
  | pending
  | resolved (a : String)
  deriving DecidableEq, Repr

/-- View of one cache entry: key absent, key mapped to `null`, or key
mapped to an address. -/
def entryState (c : Cache) (u : String) : EntryState :=
  match getVal u c with
  | none => .absent
  | some none => .pending
  | some (some a) => .resolved a

/-- The per-step transitions the monotonicity claim allows: stay put,
absent→pending, pending→resolved, pending→absent (failure eviction);
never resolved→pending, resolved→absent, a resolved-address change, or
absent→resolved directly. -/
def allowedStepB : EntryState → EntryState → Bool
  | .absent, .absent => true
  | .absent, .pending => true
  | .pending, .pending => true
  | .pending, .resolved _ => true
  | .pending, .absent => true
  | .resolved a, .resolved b => a == b
  | _, _ => false

/-- Events: a radio discovery, or the completion of a connect callback
for a uuid (carrying the address the radio reported and the error
flag). -/
inductive Event
  | discover (p : Peripheral)
  | connectDone (uuid : String) (address : Option String) (err : Bool)

structure SysState where
  cache : Cache
  inflight : List String

/-- A connect callback can only fire for a connect that was started. -/
def enabled : Event → SysState → Prop
  | .discover _, _ => True
  | .connectDone u _ _, s => u ∈ s.inflight

/-- One event step: a discovery runs `onDiscover_` (possibly starting a
connect); a connect completion runs the `connect_` callback and retires
the in-flight entry. -/
def step : Event → SysState → SysState
  | .discover p, s =>
    ⟨(onDiscover_ p s.cache).cache,
     (onDiscover_ p s.cache).connectsStarted ++ s.inflight⟩
  | .connectDone u address err, s =>
    ⟨(connect_ ⟨u, ⟨"", none⟩, address⟩ err s.cache).cache, s.inflight.erase u⟩

/-- States reachable from a loaded cache with no connect in flight. -/
inductive Reachable (init : Cache) : SysState → Prop
  | base : Reachable init ⟨init, []⟩
  | next {s : SysState} (e : Event) : Reachable init s → enabled e s →
      Reachable init (step e s)

/-- System invariant: in-flight uuids are distinct and each one's cache
entry is pending. -/
def Inv (s : SysState) : Prop :=
  s.inflight.Nodup ∧ ∀ u ∈ s.inflight, getVal u s.cache = some none

lemma entryState_congr {c1 c2 : Cache} (u : String)
    (h : getVal u c1 = getVal u c2) : entryState c1 u = entryState c2 u := by
  unfold entryState
  rw [h]

lemma allowedStepB_refl (x : EntryState) : allowedStepB x x = true := by
  cases x <;> simp [allowedStepB]

lemma onDiscover_cases (p : Peripheral) (cache : Cache) :
    ((onDiscover_ p cache).cache = cache ∧
     (onDiscover_ p cache).connectsStarted = []) ∨
    (getVal p.uuid cache = none ∧
     (onDiscover_ p cache).cache = setVal p.uuid none cache ∧
     (onDiscover_ p cache).connectsStarted = [p.uuid]) := by
  unfold onDiscover_
  split
  · exact Or.inl ⟨rfl, rfl⟩
  · split
    · exact Or.inl ⟨rfl, rfl⟩
    · split
      · exact Or.inl ⟨rfl, rfl⟩
      · split
        · exact Or.inl ⟨rfl, rfl⟩
        · split
          · rename_i hget
            exact Or.inr ⟨hget, rfl, rfl⟩
          · exact Or.inl ⟨rfl, rfl⟩
          · exact Or.inl ⟨rfl, rfl⟩

lemma connect_cases (u : String) (adv : Advertisement)
    (address : Option String) (err : Bool) (cache : Cache) :
    (connect_ ⟨u, adv, address⟩ err cache).cache = cache ∨
    (connect_ ⟨u, adv, address⟩ err cache).cache = delKey u cache ∨
    (connect_ ⟨u, adv, address⟩ err cache).cache = setVal u address cache := by
  unfold connect_
  split
  · exact Or.inl rfl
  · split
    · exact Or.inr (Or.inl rfl)
    · exact Or.inr (Or.inr rfl)

lemma inv_step {s : SysState} (e : Event) (hinv : Inv s) (he : enabled e s) :
    Inv (step e s) := by
  obtain ⟨hnd, hmem⟩ := hinv
  cases e with
  | discover p =>
    rcases onDiscover_cases p s.cache with ⟨hc, hcs⟩ | ⟨hget, hc, hcs⟩
    · refine ⟨?_, ?_⟩
      · simp only [step, hcs, List.nil_append]
        exact hnd
      · intro u hu
        simp only [step, hcs, List.nil_append] at hu
        simp only [step, hc]
        exact hmem u hu
    · have hnotin : p.uuid ∉ s.inflight := by
        intro hmem2
        have := hmem p.uuid hmem2
        rw [hget] at this
        exact Option.noConfusion this
      refine ⟨?_, ?_⟩
      · simp only [step, hcs, List.singleton_append]
        exact List.nodup_cons.mpr ⟨hnotin, hnd⟩
      · intro u hu
        simp only [step, hcs, List.singleton_append, List.mem_cons] at hu
        simp only [step, hc]
        rcases hu with rfl | hu
        · exact getVal_setVal_self _ none s.cache
        · by_cases hx : p.uuid = u
          · subst hx
            exact getVal_setVal_self p.uuid none s.cache
          · rw [getVal_setVal_ne none hx s.cache]
            exact hmem u hu
  | connectDone u2 address err =>
    refine ⟨hnd.erase u2, ?_⟩
    intro x hx
    obtain ⟨hxu, hx'⟩ := (List.Nodup.mem_erase_iff hnd).mp hx
    have hxo : getVal x s.cache = some none := hmem x hx'
    rcases connect_cases u2 ⟨"", none⟩ address err s.cache with hc | hc | hc <;>
      simp only [step, hc]
    · exact hxo
    · rw [getVal_delKey_ne (Ne.symm hxu) s.cache]
      exact hxo
    · rw [getVal_setVal_ne address (Ne.symm hxu) s.cache]
      exact hxo

lemma reachable_inv {init : Cache} {s : SysState} (h : Reachable init s) :
    Inv s := by
  induction h with
  | base => exact ⟨List.nodup_nil, by simp⟩
  | next e _ he ih => exact inv_step e ih he

/-- C7: from any reachable system state, every enabled event moves every
cache entry along an allowed edge of absent→pending→resolved (with
pending→absent as the failure eviction): no step demotes a resolved
entry or changes its address, and no step jumps from absent straight to
resolved. -/
theorem cache_entry_monotonic (init : Cache) (s : SysState) (e : Event)
    (u : String) (hr : Reachable init s) (he : enabled e s) :
    allowedStepB (entryState s.cache u) (entryState (step e s).cache u) =
      true := by
  have hinv := reachable_inv hr
  cases e with
  | discover p =>
    rcases onDiscover_cases p s.cache with ⟨hc, _⟩ | ⟨hget, hc, _⟩
    · simp only [step, hc]
      exact allowedStepB_refl _
    · simp only [step, hc]
      by_cases hx : p.uuid = u
      · subst hx
        have h1 : entryState s.cache p.uuid = .absent := by
          unfold entryState
          rw [hget]
        have h2 : entryState (setVal p.uuid none s.cache) p.uuid = .pending := by
          unfold entryState
          rw [getVal_setVal_self p.uuid none s.cache]
        rw [h1, h2]
        rfl
      · rw [entryState_congr u (getVal_setVal_ne none hx s.cache)]
        exact allowedStepB_refl _
  | connectDone u2 address err =>
    have hpend : getVal u2 s.cache = some none := hinv.2 u2 he
    rcases connect_cases u2 ⟨"", none⟩ address err s.cache with hc | hc | hc <;>
      simp only [step, hc]
    · exact allowedStepB_refl _
    · by_cases hx : u2 = u
      · subst hx
        have h1 : entryState s.cache u2 = .pending := by
          unfold entryState
          rw [hpend]
        have h2 : entryState (delKey u2 s.cache) u2 = .absent := by
          unfold entryState
          rw [getVal_delKey_self u2 s.cache]
        rw [h1, h2]
        rfl
      · rw [entryState_congr u (getVal_delKey_ne hx s.cache)]
        exact allowedStepB_refl _
    · by_cases hx : u2 = u
      · subst hx
        have h1 : entryState s.cache u2 = .pending := by
          unfold entryState
          rw [hpend]
        have h2 := getVal_setVal_self u2 address s.cache
        rw [h1]
        unfold entryState
        rw [h2]
        cases address <;> rfl
      · rw [entryState_congr u (getVal_setVal_ne address hx s.cache)]
        exact allowedStepB_refl _

/-- Witness for C7: the first discovery of uuid "u2" from the empty
initial cache takes its entry from absent to pending, an allowed step. -/
theorem cache_entry_monotonic_witness :
    Reachable [] ⟨[], []⟩ ∧
    enabled
      (.discover ⟨"u2", ⟨"sps", some [0x66, 0x08, 0x9C, 0x15, 0, 0xE0, 0xD6, 87, 0]⟩, none⟩)
      ⟨[], []⟩ ∧
    allowedStepB (entryState ([] : Cache) "u2")
      (entryState
        (step (.discover ⟨"u2", ⟨"sps", some [0x66, 0x08, 0x9C, 0x15, 0, 0xE0, 0xD6, 87, 0]⟩, none⟩)
          ⟨[], []⟩).cache "u2") = true :=
  ⟨Reachable.base, trivial,
   cache_entry_monotonic [] ⟨[], []⟩
     (.discover ⟨"u2", ⟨"sps", some [0x66, 0x08, 0x9C, 0x15, 0, 0xE0, 0xD6, 87, 0]⟩, none⟩)
     "u2" Reachable.base trivial⟩

/-! ## Config persistence (source: `IBS_TH1.Config`)

`Config.load` is `JSON.parse(fs.readFileSync(path, 'utf8'))` with a
catch-all that writes `{}` and returns `{}`; `Config.save(data)` is
`fs.writeFileSync(path, JSON.stringify(data))`.  The file system is
modelled as the optional content of the single config file, and
`JSON.stringify` / `JSON.parse` are modelled character-exactly for the
flat string-to-string objects this config ever holds (any other JSON
document counts as a parse failure in the model). -/

def quoteChar : Char := Char.ofNat 34

def backslashChar : Char := Char.ofNat 92

def lbraceChar : Char := Char.ofNat 123

def rbraceChar : Char := Char.ofNat 125

def hexDigitChar (n : Nat) : Char :=
  if n < 10 then Char.ofNat (48 + n) else Char.ofNat (97 + (n - 10))

/-- The escaping `JSON.stringify` applies to one character inside a
string literal. -/
def jsonEscapeChar (c : Char) : List Char :=
  if c = quoteChar then [backslashChar, quoteChar]
  else if c = backslashChar then [backslashChar, backslashChar]
  else if c = Char.ofNat 8 then [backslashChar, 'b']
  else if c = Char.ofNat 9 then [backslashChar, 't']
  else if c = Char.ofNat 10 then [backslashChar, 'n']
  else if c = Char.ofNat 12 then [backslashChar, 'f']
  else if c = Char.ofNat 13 then [backslashChar, 'r']
  else if c.toNat < 32 then
    [backslashChar, 'u', '0', '0',
     hexDigitChar (c.toNat / 16), hexDigitChar (c.toNat % 16)]
  else [c]

/-- A JSON string literal: quote, escaped characters, quote. -/
def quoteChars (s : String) : List Char :=
  quoteChar :: (s.toList.map jsonEscapeChar).flatten ++ [quoteChar]

/-- The members of `JSON.stringify({k1:v1, ...})`, comma separated, in
object key (insertion) order. -/
def stringifyMembers : List (String × String) → List Char
  | [] => []
  | [(k, v)] => quoteChars k ++ ':' :: quoteChars v
  | (k, v) :: rest =>
    quoteChars k ++ ':' :: quoteChars v ++ ',' :: stringifyMembers rest

/-- Model of `JSON.stringify` of a flat string-to-string object. -/
def stringifyObj (m : List (String × String)) : String :=
  ⟨lbraceChar :: (stringifyMembers m ++ [rbraceChar])⟩

/-- Parse the body of a JSON string literal after its opening quote,
decoding the single-character escapes; returns the decoded characters
and the rest of the input. -/
def parseStringBody : List Char → Option (List Char × List Char)
  | [] => none
  | c :: rest =>
    if c = quoteChar then some ([], rest)
    else if c = backslashChar then
      match rest with
      | [] => none
      | e :: rest2 =>
        let d : Option Char :=
          if e = quoteChar then some quoteChar
          else if e = backslashChar then some backslashChar
          else if e = 'b' then some (Char.ofNat 8)
          else if e = 't' then some (Char.ofNat 9)
          else if e = 'n' then some (Char.ofNat 10)
          else if e = 'f' then some (Char.ofNat 12)
          else if e = 'r' then some (Char.ofNat 13)
          else none
        match d with
        | none => none
        | some d2 =>
          match parseStringBody rest2 with
          | none => none
          | some (cs, r) => some (d2 :: cs, r)
    else
      match parseStringBody rest with
      | none => none
      | some (cs, r) => some (c :: cs, r)

/-- Parse `"key":"value"` members separated by commas up to the closing
brace, fuelled by the input length. -/
def parseMembers : Nat → List Char → Option (List (String × String) × List Char)
  | 0, _ => none
  | _ + 1, [] => none
  | fuel + 1, c :: rest =>
    if c = quoteChar then
      match parseStringBody rest with
      | none => none
      | some (k, r1) =>
        match r1 with
        | c1 :: c2 :: r2 =>
          if c1 = ':' ∧ c2 = quoteChar then
            match parseStringBody r2 with
            | none => none
            | some (v, r3) =>
              match r3 with
              | [] => none
              | c3 :: r4 =>
                if c3 = ',' then
                  match parseMembers fuel r4 with
                  | none => none
                  | some (ms, r) => some ((⟨k⟩, ⟨v⟩) :: ms, r)
                else if c3 = rbraceChar then
                  some ([(⟨k⟩, ⟨v⟩)], r4)
                else none
          else none
        | _ => none
    else none

/-- Model of `JSON.parse` restricted to the flat string-map documents `Config`
writes: an object of string members with no surrounding whitespace. -/
def parseObj (s : String) : Option (List (String × String)) :=
  match s.toList with
  | [] => none
  | c :: rest =>
    if c = lbraceChar then
      if rest = [rbraceChar] then some []
      else
        match parseMembers rest.length rest with
        | none => none
        | some (ms, r) => if r = [] then some ms else none
    else none

/-- Content of the single config file (`none`: missing or unreadable, so
`readFileSync` throws). -/
abbrev FsState := Option String

namespace Config

/-- Source `Config.load`: parse the file; on any failure (missing file or
unparseable content) run `this.save({})` and return `{}`.  Returns the
loaded mapping together with the file content afterwards. -/
def load (fs : FsState) : List (String × String) × FsState :=
  match fs with
  | none => ([], some (stringifyObj []))
  | some content =>
    match parseObj content with
    | some data => (data, some content)
    | none => ([], some (stringifyObj []))

/-- Source `Config.save(data)`: whole-file overwrite with
`JSON.stringify(data)` (directory auto-creation does not affect the file
content). -/
def save (data : List (String × String)) (_fs : FsState) : FsState :=
  some (stringifyObj data)

end Config

/-- C8: a failing load — missing file or unparseable content — returns
the empty mapping and persists `{}` to the file, so a subsequent load
parses successfully, returns the empty mapping, and leaves the file
untouched. -/
theorem load_self_heals (fs : FsState)
    (h : ∀ content, fs = some content → parseObj content = none) :
    (Config.load fs).1 = [] ∧
    (Config.load fs).2 = some (stringifyObj []) ∧
    (Config.load (Config.load fs).2).1 = [] ∧
    (Config.load (Config.load fs).2).2 = (Config.load fs).2 := by
  have hkey : parseObj (stringifyObj []) = some [] := by decide
  cases fs with
  | none => simp [Config.load, hkey]
  | some content =>
    have hc := h content rfl
    simp [Config.load, hc, hkey]

/-- Witness for C8 at a concrete corrupt file content. -/
theorem load_self_heals_witness :
    (∀ content, (some "garbage" : FsState) = some content →
      parseObj content = none) ∧
    ((Config.load (some "garbage")).1 = [] ∧
     (Config.load (some "garbage")).2 = some (stringifyObj []) ∧
     (Config.load (Config.load (some "garbage")).2).1 = [] ∧
     (Config.load (Config.load (some "garbage")).2).2 =
       (Config.load (some "garbage")).2) :=
  ⟨fun content hc => by
    cases hc
    decide,
   load_self_heals (some "garbage") (fun content hc => by
    cases hc
    decide)⟩

/-! ## Round-trip of `stringifyObj` and `parseObj`

`safeChar` captures the characters `JSON.stringify` emits verbatim (no
escaping); scan identifiers and hardware addresses are plain printable
ASCII, so they are safe. -/

def safeChar (c : Char) : Prop :=
  c ≠ quoteChar ∧ c ≠ backslashChar ∧ 32 ≤ c.toNat

instance : DecidablePred safeChar := fun c => by
  unfold safeChar
  infer_instance

def safeStr (s : String) : Prop := ∀ c ∈ s.toList, safeChar c

instance : DecidablePred safeStr := fun s => by
  unfold safeStr
  infer_instance

lemma jsonEscapeChar_safe {c : Char} (h : safeChar c) :
    jsonEscapeChar c = [c] := by
  obtain ⟨h1, h2, h3⟩ := h
  unfold jsonEscapeChar
  rw [if_neg h1, if_neg h2,
    if_neg (fun he => by subst he; exact absurd h3 (by decide)),
    if_neg (fun he => by subst he; exact absurd h3 (by decide)),
    if_neg (fun he => by subst he; exact absurd h3 (by decide)),
    if_neg (fun he => by subst he; exact absurd h3 (by decide)),
    if_neg (fun he => by subst he; exact absurd h3 (by decide)),
    if_neg (by omega)]

lemma escape_flatten_safe {l : List Char} (h : ∀ c ∈ l, safeChar c) :
    (l.map jsonEscapeChar).flatten = l := by
  induction l with
  | nil => rfl
  | cons c cs ih =>
    rw [List.map_cons, List.flatten_cons,
      jsonEscapeChar_safe (h c (List.mem_cons_self c cs)),
      ih (fun x hx => h x (List.mem_cons_of_mem c hx))]
    rfl

lemma quoteChars_append (s : String) (X : List Char) (h : safeStr s) :
    quoteChars s ++ X = quoteChar :: (s.toList ++ quoteChar :: X) := by
  unfold quoteChars
  rw [escape_flatten_safe h]
  simp [List.append_assoc]

lemma parseStringBody_safe {l : List Char} (r : List Char)
    (h : ∀ c ∈ l, safeChar c) :
    parseStringBody (l ++ quoteChar :: r) = some (l, r) := by
  induction l with
  | nil =>
    rw [List.nil_append]
    unfold parseStringBody
    rw [if_pos rfl]
  | cons c cs ih =>
    obtain ⟨h1, h2, _⟩ := h c (List.mem_cons_self c cs)
    rw [List.cons_append]
    unfold parseStringBody
    rw [if_neg h1, if_neg h2, ih (fun x hx => h x (List.mem_cons_of_mem c hx))]

lemma parseMembers_stringify :
    ∀ (ps : List (String × String)) (fuel : Nat), ps ≠ [] →
      ps.length ≤ fuel →
      (∀ kv ∈ ps, safeStr kv.1 ∧ safeStr kv.2) →
      parseMembers fuel (stringifyMembers ps ++ [rbraceChar]) = some (ps, [])
  | [], _, hne, _, _ => absurd rfl hne
  | [(k, v)], 0, _, hlen, _ => absurd hlen (by simp)
  | [(k, v)], fuel + 1, _, _, hsafe => by
    obtain ⟨hk, hv⟩ := hsafe (k, v) (List.mem_singleton.mpr rfl)
    have e1 : stringifyMembers [(k, v)] ++ [rbraceChar] =
        quoteChar :: (k.toList ++ quoteChar :: ':' :: quoteChar ::
          (v.toList ++ quoteChar :: [rbraceChar])) := by
      show (quoteChars k ++ ':' :: quoteChars v) ++ [rbraceChar] = _
      rw [List.append_assoc, List.cons_append, quoteChars_append v _ hv,
        quoteChars_append k _ hk]
    rw [e1]
    unfold parseMembers
    rw [if_pos rfl, parseStringBody_safe _ hk]
    dsimp only
    rw [if_pos ⟨rfl, rfl⟩, parseStringBody_safe _ hv]
    dsimp only
    rw [if_neg (by decide), if_pos rfl]
    rfl
  | (k, v) :: p2 :: ps2, 0, _, hlen, _ => absurd hlen (by simp)
  | (k, v) :: p2 :: ps2, fuel + 1, _, hlen, hsafe => by
    obtain ⟨hk, hv⟩ := hsafe (k, v) (List.mem_cons_self _ _)
    have e1 : stringifyMembers ((k, v) :: p2 :: ps2) ++ [rbraceChar] =
        quoteChar :: (k.toList ++ quoteChar :: ':' :: quoteChar ::
          (v.toList ++ quoteChar :: ',' ::
            (stringifyMembers (p2 :: ps2) ++ [rbraceChar]))) := by
      show ((quoteChars k ++ ':' :: quoteChars v) ++
          ',' :: stringifyMembers (p2 :: ps2)) ++ [rbraceChar] = _
      simp only [List.append_assoc, List.cons_append]
      rw [quoteChars_append v _ hv, quoteChars_append k _ hk]
    rw [e1]
    unfold parseMembers
    rw [if_pos rfl, parseStringBody_safe _ hk]
    dsimp only
    rw [if_pos ⟨rfl, rfl⟩, parseStringBody_safe _ hv]
    dsimp only
    rw [if_pos rfl,
      parseMembers_stringify (p2 :: ps2) fuel (by simp) (by simpa using hlen)
        (fun kv hkv => hsafe kv (List.mem_cons_of_mem _ hkv))]
    rfl

lemma quoteChars_length_ge (s : String) : 2 ≤ (quoteChars s).length := by
  unfold quoteChars
  simp

lemma stringifyMembers_length_ge :
    ∀ m : List (String × String), m.length ≤ (stringifyMembers m).length
  | [] => by simp [stringifyMembers]
  | [(k, v)] => by
    have h := quoteChars_length_ge k
    show 1 ≤ (quoteChars k ++ ':' :: quoteChars v).length
    rw [List.length_append, List.length_cons]
    omega
  | (k, v) :: p2 :: ps2 => by
    have h1 := quoteChars_length_ge k
    have ih := stringifyMembers_length_ge (p2 :: ps2)
    show (p2 :: ps2).length + 1 ≤
      (((quoteChars k ++ ':' :: quoteChars v) ++
        ',' :: stringifyMembers (p2 :: ps2))).length
    simp only [List.length_append, List.length_cons] at ih ⊢
    omega

lemma parseObj_stringify (m : List (String × String))
    (hsafe : ∀ kv ∈ m, safeStr kv.1 ∧ safeStr kv.2) :
    parseObj (stringifyObj m) = some m := by
  cases m with
  | nil => decide
  | cons kv rest =>
    have hsm := stringifyMembers_length_ge (kv :: rest)
    rw [List.length_cons] at hsm
    unfold parseObj stringifyObj
    dsimp only [String.toList]
    rw [if_pos rfl,
      if_neg (fun heq => by
        have hlen := congrArg List.length heq
        simp only [List.length_append, List.length_cons, List.length_nil] at hlen
        omega),
      parseMembers_stringify (kv :: rest) _ (by simp)
        (by
          rw [List.length_append, List.length_cons]
          simp only [List.length_cons, List.length_nil]
          omega)
        hsafe]
    dsimp only
    rw [if_pos rfl]

/-- C9: saving a mapping of safe (printable, unescaped) strings and
loading it back reproduces exactly the same mapping in the same order
and leaves the file as saved; and saving the same mapping twice writes
byte-identical file content (save is idempotent on the stored bytes). -/
theorem save_load_roundtrip (m : List (String × String)) (fs : FsState)
    (hsafe : ∀ kv ∈ m, safeStr kv.1 ∧ safeStr kv.2)
    (hnodup : (m.map Prod.fst).Nodup) :
    (Config.load (Config.save m fs)).1 = m ∧
    (Config.load (Config.save m fs)).2 = Config.save m fs ∧
    Config.save m (Config.save m fs) = Config.save m fs := by
  have hp := parseObj_stringify m hsafe
  refine ⟨?_, ?_, rfl⟩ <;> simp [Config.load, Config.save, hp]

/-- Witness for C9 at a concrete two-entry mapping. -/
theorem save_load_roundtrip_witness :
    ((∀ kv ∈ [("u1", "AA:BB:CC:DD:EE:FF"), ("u2", "11:22:33:44:55:66")],
        safeStr kv.1 ∧ safeStr kv.2) ∧
     (([("u1", "AA:BB:CC:DD:EE:FF"), ("u2", "11:22:33:44:55:66")].map
        Prod.fst).Nodup)) ∧
    ((Config.load (Config.save
        [("u1", "AA:BB:CC:DD:EE:FF"), ("u2", "11:22:33:44:55:66")] none)).1 =
      [("u1", "AA:BB:CC:DD:EE:FF"), ("u2", "11:22:33:44:55:66")] ∧
     (Config.load (Config.save
        [("u1", "AA:BB:CC:DD:EE:FF"), ("u2", "11:22:33:44:55:66")] none)).2 =
      Config.save [("u1", "AA:BB:CC:DD:EE:FF"), ("u2", "11:22:33:44:55:66")]
        none ∧
     Config.save [("u1", "AA:BB:CC:DD:EE:FF"), ("u2", "11:22:33:44:55:66")]
        (Config.save [("u1", "AA:BB:CC:DD:EE:FF"), ("u2", "11:22:33:44:55:66")]
          none) =
      Config.save [("u1", "AA:BB:CC:DD:EE:FF"), ("u2", "11:22:33:44:55:66")]
        none) :=
  ⟨⟨by decide, by decide⟩,
   save_load_roundtrip
     [("u1", "AA:BB:CC:DD:EE:FF"), ("u2", "11:22:33:44:55:66")] none
     (by decide) (by decide)⟩

end IBS_TH1
